import Mathlib

/-!
Verification of the My-Swing-Admin dashboard and upload endpoint.

The dashboard page (`getServerSideProps`) computes date windows with
date-fns (`subDays`, `startOfMonth`, `endOfMonth`, `subMonths`,
`startOfDay`, `endOfDay`, `eachDayOfInterval`), issues count/select
queries, and derives metric deltas, consent rates and per-day chart
series.  Every window endpoint is passed through `startOfDay`/`endOfDay`
before querying, so windows are modelled at calendar-day granularity: a
date is a `(year, month, day)` triple of the proleptic Gregorian
calendar, and a window is the inclusive pair of its first and last day.
-/

/-- Gregorian leap-year rule, as implemented by JS `Date` month/day
arithmetic that date-fns builds on. -/
def isLeap (y : Int) : Bool :=
  y % 4 == 0 && (y % 100 != 0 || y % 400 == 0)

/-- Number of days of month `m` (1–12) of year `y`. -/
def daysInMonth (y m : Int) : Int :=
  if m = 2 then (if isLeap y then 29 else 28)
  else if m = 4 ∨ m = 6 ∨ m = 9 ∨ m = 11 then 30
  else 31

/-- A calendar day of the proleptic Gregorian calendar. -/
structure Date where
  y : Int
  m : Int
  d : Int
deriving DecidableEq, Repr

/-- Predicate: `x` denotes an actual calendar day. -/
def Date.Valid (x : Date) : Prop :=
  1 ≤ x.m ∧ x.m ≤ 12 ∧ 1 ≤ x.d ∧ x.d ≤ daysInMonth x.y x.m

instance (x : Date) : Decidable x.Valid := by
  unfold Date.Valid; infer_instance

/-- The calendar day after `x` (the day-granularity successor used by
date-fns when stepping through an interval). -/
def nextDay (x : Date) : Date :=
  if x.d < daysInMonth x.y x.m then ⟨x.y, x.m, x.d + 1⟩
  else if x.m < 12 then ⟨x.y, x.m + 1, 1⟩
  else ⟨x.y + 1, 1, 1⟩

/-- The calendar day before `x`; `subDays` subtracts day by day. -/
def prevDay (x : Date) : Date :=
  if 1 < x.d then ⟨x.y, x.m, x.d - 1⟩
  else if 1 < x.m then ⟨x.y, x.m - 1, daysInMonth x.y (x.m - 1)⟩
  else ⟨x.y - 1, 12, 31⟩

/-- date-fns `subDays(x, k)` at day granularity. -/
def subDays (x : Date) (k : Nat) : Date := prevDay^[k] x

/-- date-fns `startOfMonth(x)` at day granularity. -/
def startOfMonth (x : Date) : Date := ⟨x.y, x.m, 1⟩

/-- date-fns `endOfMonth(x)` at day granularity. -/
def endOfMonth (x : Date) : Date := ⟨x.y, x.m, daysInMonth x.y x.m⟩

/-- date-fns `subMonths(x, k)`: move `k` months back, clamping the
day-of-month to the target month's length. -/
def subMonths (x : Date) (k : Nat) : Date :=
  let t : Int := 12 * x.y + (x.m - 1) - k
  let y' := t / 12
  let m' := t % 12 + 1
  ⟨y', m', min x.d (daysInMonth y' m')⟩

/-- Days contributed by the months of year `y` strictly before month
`m`; `dayOfYear ⟨y, m, d⟩ = monthOffset y m + d`. -/
def monthOffset (y m : Int) : Int :=
  let leap : Int := if isLeap y then 1 else 0
  if m ≤ 1 then 0
  else if m = 2 then 31
  else if m = 3 then 59 + leap
  else if m = 4 then 90 + leap
  else if m = 5 then 120 + leap
  else if m = 6 then 151 + leap
  else if m = 7 then 181 + leap
  else if m = 8 then 212 + leap
  else if m = 9 then 243 + leap
  else if m = 10 then 273 + leap
  else if m = 11 then 304 + leap
  else 334 + leap

/-- Number of leap years in `[0, y)` (counted with the Gregorian rule),
valid for negative `y` as well thanks to Euclidean division. -/
def leapsBefore (y : Int) : Int :=
  (y + 3) / 4 - (y + 99) / 100 + (y + 399) / 400

/-- Absolute day number of a calendar day: a strictly monotone linear
index with `dayNumber (nextDay x) = dayNumber x + 1` on valid days. -/
def dayNumber (x : Date) : Int :=
  365 * x.y + leapsBefore x.y + monthOffset x.y x.m + x.d

/-- Length in days of the inclusive day window `[a, b]`. -/
def winLen (a b : Date) : Int := dayNumber b - dayNumber a + 1

example : nextDay ⟨2024, 2, 28⟩ = ⟨2024, 2, 29⟩ := by decide
example : nextDay ⟨2023, 2, 28⟩ = ⟨2023, 3, 1⟩ := by decide
example : prevDay ⟨2024, 3, 1⟩ = ⟨2024, 2, 29⟩ := by decide
example : prevDay ⟨2024, 1, 1⟩ = ⟨2023, 12, 31⟩ := by decide
example : subMonths ⟨2024, 1, 31⟩ 2 = ⟨2023, 11, 30⟩ := by decide
example : subMonths ⟨2024, 3, 31⟩ 1 = ⟨2024, 2, 29⟩ := by decide
example : dayNumber ⟨2024, 3, 1⟩ = dayNumber ⟨2024, 2, 29⟩ + 1 := by decide
example : dayNumber ⟨2024, 1, 1⟩ = dayNumber ⟨2023, 12, 31⟩ + 1 := by decide

theorem daysInMonth_bounds (y m : Int) :
    28 ≤ daysInMonth y m ∧ daysInMonth y m ≤ 31 := by
  unfold daysInMonth
  split_ifs <;> norm_num

theorem monthOffset_succ (y : Int) {m : Int} (h1 : 1 ≤ m) (h2 : m ≤ 11) :
    monthOffset y (m + 1) = monthOffset y m + daysInMonth y m := by
  interval_cases m <;>
    simp [monthOffset, daysInMonth] <;> split <;> norm_num

theorem isLeap_iff (y : Int) :
    isLeap y = true ↔ (y % 4 = 0 ∧ (y % 100 ≠ 0 ∨ y % 400 = 0)) := by
  simp [isLeap]

theorem leapsBefore_succ (y : Int) :
    leapsBefore (y + 1) = leapsBefore y + (if isLeap y then 1 else 0) := by
  have h4 : (y + 1 + 3) / 4 = (y + 3) / 4 + (if y % 4 = 0 then 1 else 0) := by
    by_cases h : y % 4 = 0 <;> simp only [h, if_true, if_false, if_pos, if_neg,
      not_false_eq_true] <;> omega
  have h100 : (y + 1 + 99) / 100 = (y + 99) / 100 + (if y % 100 = 0 then 1 else 0) := by
    by_cases h : y % 100 = 0 <;> simp only [h, if_true, if_false, if_pos, if_neg,
      not_false_eq_true] <;> omega
  have h400 : (y + 1 + 399) / 400 = (y + 399) / 400 + (if y % 400 = 0 then 1 else 0) := by
    by_cases h : y % 400 = 0 <;> simp only [h, if_true, if_false, if_pos, if_neg,
      not_false_eq_true] <;> omega
  simp only [leapsBefore, h4, h100, h400, isLeap_iff]
  by_cases a : y % 4 = 0 <;> by_cases b : y % 100 = 0 <;> by_cases c : y % 400 = 0 <;>
    simp [a, b, c] <;> omega

theorem dayNumber_nextDay {x : Date} (hx : x.Valid) :
    dayNumber (nextDay x) = dayNumber x + 1 := by
  obtain ⟨x_y, x_m, x_d⟩ := x
  simp only [Date.Valid] at hx
  obtain ⟨hm1, hm2, hd1, hd2⟩ := hx
  simp only [nextDay]
  split_ifs with h1 h2
  · simp only [dayNumber]
    omega
  · have hd : x_d = daysInMonth x_y x_m := by omega
    have hoff := monthOffset_succ x_y hm1 (by omega)
    simp only [dayNumber]
    omega
  · have hm : x_m = 12 := by omega
    subst hm
    have h31 : daysInMonth x_y 12 = 31 := by simp [daysInMonth]
    rw [h31] at hd2 h1
    have hd : x_d = 31 := by omega
    subst hd
    have hl := leapsBefore_succ x_y
    simp only [dayNumber]
    norm_num [monthOffset]
    by_cases hL : isLeap x_y = true
    · rw [if_pos hL] at hl
      rw [if_pos hL]
      omega
    · rw [if_neg hL] at hl
      rw [if_neg hL]
      omega

theorem prevDay_valid {x : Date} (hx : x.Valid) : (prevDay x).Valid := by
  obtain ⟨x_y, x_m, x_d⟩ := x
  simp only [Date.Valid] at hx
  obtain ⟨hm1, hm2, hd1, hd2⟩ := hx
  simp only [prevDay, Date.Valid]
  have hb := daysInMonth_bounds x_y x_m
  split_ifs with h1 h2 <;> dsimp only
  · exact ⟨hm1, hm2, by omega, by omega⟩
  · have hb' := daysInMonth_bounds x_y (x_m - 1)
    exact ⟨by omega, by omega, by omega, by omega⟩
  · have h31 : daysInMonth (x_y - 1) 12 = 31 := by simp [daysInMonth]
    exact ⟨by norm_num, by norm_num, by norm_num, by rw [h31]⟩

theorem nextDay_valid {x : Date} (hx : x.Valid) : (nextDay x).Valid := by
  obtain ⟨x_y, x_m, x_d⟩ := x
  simp only [Date.Valid] at hx
  obtain ⟨hm1, hm2, hd1, hd2⟩ := hx
  simp only [nextDay, Date.Valid]
  split_ifs with h1 h2 <;> dsimp only
  · exact ⟨hm1, hm2, by omega, by omega⟩
  · have hb' := daysInMonth_bounds x_y (x_m + 1)
    exact ⟨by omega, by omega, by omega, by omega⟩
  · have hb' := daysInMonth_bounds (x_y + 1) 1
    exact ⟨by norm_num, by norm_num, by norm_num, by omega⟩

theorem nextDay_prevDay {x : Date} (hx : x.Valid) : nextDay (prevDay x) = x := by
  obtain ⟨x_y, x_m, x_d⟩ := x
  simp only [Date.Valid] at hx
  obtain ⟨hm1, hm2, hd1, hd2⟩ := hx
  have hb := daysInMonth_bounds x_y x_m
  simp only [prevDay]
  split_ifs with h1 h2
  · unfold nextDay
    dsimp only
    rw [if_pos (by omega : x_d - 1 < daysInMonth x_y x_m)]
    simp only [Date.mk.injEq, eq_self_iff_true, true_and, and_true]
    omega
  · have hb' := daysInMonth_bounds x_y (x_m - 1)
    unfold nextDay
    dsimp only
    rw [if_neg (lt_irrefl (daysInMonth x_y (x_m - 1))),
      if_pos (by omega : x_m - 1 < 12)]
    simp only [Date.mk.injEq, eq_self_iff_true, true_and, and_true]
    omega
  · have h31 : daysInMonth (x_y - 1) 12 = 31 := by simp [daysInMonth]
    unfold nextDay
    dsimp only
    rw [h31, if_neg (lt_irrefl (31 : Int)), if_neg (by norm_num : ¬(12:Int) < 12)]
    simp only [Date.mk.injEq, eq_self_iff_true, true_and, and_true]
    omega

theorem dayNumber_prevDay {x : Date} (hx : x.Valid) :
    dayNumber (prevDay x) = dayNumber x - 1 := by
  have h1 := dayNumber_nextDay (prevDay_valid hx)
  rw [nextDay_prevDay hx] at h1
  omega

theorem subDays_valid {x : Date} (hx : x.Valid) (k : Nat) : (subDays x k).Valid := by
  induction k with
  | zero => simpa [subDays]
  | succ n ih =>
    rw [subDays, Function.iterate_succ_apply']
    exact prevDay_valid ih

theorem dayNumber_subDays {x : Date} (hx : x.Valid) (k : Nat) :
    dayNumber (subDays x k) = dayNumber x - k := by
  induction k with
  | zero => simp [subDays]
  | succ n ih =>
    rw [subDays, Function.iterate_succ_apply']
    have hv : (prevDay^[n] x).Valid := subDays_valid hx n
    have ih' : dayNumber (prevDay^[n] x) = dayNumber x - n := ih
    rw [dayNumber_prevDay hv]
    omega

theorem nextDay_iterate_valid {x : Date} (hx : x.Valid) (k : Nat) :
    (nextDay^[k] x).Valid := by
  induction k with
  | zero => simpa
  | succ n ih =>
    rw [Function.iterate_succ_apply']
    exact nextDay_valid ih

theorem dayNumber_nextDay_iterate {x : Date} (hx : x.Valid) (k : Nat) :
    dayNumber (nextDay^[k] x) = dayNumber x + k := by
  induction k with
  | zero => simp
  | succ n ih =>
    rw [Function.iterate_succ_apply', dayNumber_nextDay (nextDay_iterate_valid hx n)]
    omega

/-- The date windows computed by the dashboard's `getServerSideProps`
switch on the `period` query parameter: the current window
`(startDate, endDate)` and the comparison window
`(previousStartDate, previousEndDate)`, at day granularity (the code
passes every endpoint through `startOfDay`/`endOfDay` before querying).
Unknown period strings fall through to the `7d` default case. -/
def periodRange (period : String) (now : Date) : (Date × Date) × (Date × Date) :=
  if period = "30d" then
    let startDate := subDays now 29
    ((startDate, now), (subDays startDate 30, subDays now 30))
  else if period = "month" then
    ((startOfMonth now, now),
      (startOfMonth (subMonths now 1), endOfMonth (subMonths now 1)))
  else if period = "last_month" then
    ((startOfMonth (subMonths now 1), endOfMonth (subMonths now 1)),
      (startOfMonth (subMonths now 2), endOfMonth (subMonths now 2)))
  else
    let startDate := subDays now 6
    ((startDate, now), (subDays startDate 7, subDays now 7))

/-- The claim as stated: for every period, the comparison window has the
same length as the current window and ends exactly where it begins. -/
def sameLengthPrecedingWindow (period : String) (now : Date) : Prop :=
  let r := periodRange period now
  winLen r.1.1 r.1.2 = winLen r.2.1 r.2.2 ∧ nextDay r.2.2 = r.1.1

theorem nextDay_subDays_succ {x : Date} (hx : x.Valid) (k : Nat) :
    nextDay (subDays x (k + 1)) = subDays x k := by
  rw [subDays, Function.iterate_succ_apply']
  exact nextDay_prevDay (subDays_valid hx k)

theorem nextDay_monthEnd (t : Int) :
    nextDay ⟨t / 12, t % 12 + 1, daysInMonth (t / 12) (t % 12 + 1)⟩ =
      ⟨(t + 1) / 12, (t + 1) % 12 + 1, 1⟩ := by
  unfold nextDay
  dsimp only
  rw [if_neg (lt_irrefl _)]
  by_cases hr : t % 12 + 1 < 12
  · rw [if_pos hr]
    simp only [Date.mk.injEq, eq_self_iff_true, true_and, and_true]
    omega
  · rw [if_neg hr]
    simp only [Date.mk.injEq, eq_self_iff_true, true_and, and_true]
    omega

/-- C1, counterexample: with the `month` period on 2024-10-12, the
current window (Oct 1–Oct 12, 12 days) and the comparison window
(Sep 1–Sep 30, 30 days) do not have the same length, so the comparison
window is not "a date window of the same length as the current window". -/
theorem C1_counterexample :
    ¬ sameLengthPrecedingWindow "month" ⟨2024, 10, 12⟩ := by
  unfold sameLengthPrecedingWindow
  decide

/-- C1, amended: for every valid current date, the comparison window
always ends exactly where the current window begins (its successor day
is the current window's first day), and for the `7d` and `30d` periods
(and the default fallback) it also has the same length as the current
window; for `month` and `last_month` the comparison window is the full
preceding calendar month, whose length can differ from the current
window's. -/
theorem C1_amended (period : String) (now : Date) (hv : now.Valid) :
    nextDay (periodRange period now).2.2 = (periodRange period now).1.1 ∧
    (period ≠ "month" ∧ period ≠ "last_month" →
      winLen (periodRange period now).1.1 (periodRange period now).1.2 =
        winLen (periodRange period now).2.1 (periodRange period now).2.2) := by
  unfold periodRange
  split_ifs with h30 hm hlm
  · dsimp only
    refine ⟨nextDay_subDays_succ hv 29, fun _ => ?_⟩
    unfold winLen
    rw [dayNumber_subDays (subDays_valid hv 29) 30, dayNumber_subDays hv 29,
      dayNumber_subDays hv 30]
    omega
  · dsimp only
    constructor
    · show nextDay (endOfMonth (subMonths now 1)) = startOfMonth now
      obtain ⟨hm1, hm2, _, _⟩ := hv
      simp only [subMonths, endOfMonth, startOfMonth]
      rw [nextDay_monthEnd]
      simp only [Date.mk.injEq, eq_self_iff_true, and_true, true_and]
      constructor <;> omega
    · intro hcontra
      exact absurd hm hcontra.1
  · dsimp only
    constructor
    · show nextDay (endOfMonth (subMonths now 2)) = startOfMonth (subMonths now 1)
      simp only [subMonths, endOfMonth, startOfMonth]
      rw [nextDay_monthEnd]
      simp only [Date.mk.injEq, eq_self_iff_true, and_true, true_and]
      constructor <;> omega
    · intro hcontra
      exact absurd hlm hcontra.2
  · dsimp only
    refine ⟨nextDay_subDays_succ hv 6, fun _ => ?_⟩
    unfold winLen
    rw [dayNumber_subDays (subDays_valid hv 6) 7, dayNumber_subDays hv 6,
      dayNumber_subDays hv 7]
    omega

/-- Witness for `C1_amended` at the concrete date 2024-10-12. -/
theorem C1_amended_witness :
    nextDay (periodRange "7d" ⟨2024, 10, 12⟩).2.2 = (periodRange "7d" ⟨2024, 10, 12⟩).1.1 :=
  (C1_amended "7d" ⟨2024, 10, 12⟩ (by decide)).1

/-- A Supabase count-query response as consumed by the dashboard:
either an error, or a (possibly null) count. -/
structure CountResponse where
  error : Option String
  count : Option Nat

/-- The `getCountOrZero` helper of `getServerSideProps`: an errored response is
logged and degraded to 0, a null count defaults to 0. -/
def getCountOrZero (response : CountResponse) : Nat :=
  match response.error with
  | some _ => 0
  | none => response.count.getD 0

/-- The `MetricData` record of the dashboard page. Percentages are JS numbers,
modelled as exact rationals. -/
structure MetricData where
  current : Int
  previous : Option Int
  delta : Int
  deltaPercentage : Option ℚ
deriving Repr

/-- The `RateMetricData` record of the dashboard page. -/
structure RateMetricData where
  optedIn : Nat
  total : Nat
  rate : ℚ
deriving Repr

/-- date-fns `eachDayOfInterval({start, end})` at day granularity: every
calendar day from `start` to `last` inclusive, in chronological order. -/
def eachDayOfInterval (start last : Date) : List Date :=
  (List.range (dayNumber last - dayNumber start + 1).toNat).map
    (fun i => nextDay^[i] start)

/-- One chart series of the dashboard: for each day of the interval, the
number of fetched rows whose `created_at` falls on that calendar day
(a row is modelled by its `created_at` calendar day; an errored row
query has `rows = none`, degraded to `[]` by `data || []`).  The page
renders each day as a locale-formatted label; the day itself stands in
for that label here. -/
def chartSeries (start last : Date) (rows : Option (List Date)) : List (Date × Nat) :=
  (eachDayOfInterval start last).map fun day =>
    (day, ((rows.getD []).filter (fun item => item = day)).length)

/-- The `DashboardMetrics` record of the dashboard page (the `generatedAt`
timestamp string is presentation-only and omitted). -/
structure DashboardMetrics where
  totalUsers : MetricData
  weeklySignups : MetricData
  analyses : MetricData
  waitlist : MetricData
  consentMarketing : RateMetricData
  consentImprovement : RateMetricData
  userGrowthData : List (Date × Nat)
  analysisActivityData : List (Date × Nat)
  waitlistGrowthData : List (Date × Nat)

/-- The metric computation of `getServerSideProps` (lines 514–615),
taking the ten query counts, the current window, and the three
`created_at` row lists fetched for the charts. -/
def buildDashboardMetrics
    (totalUsersCount periodUsersCount previousPeriodUsersCount
      periodAnalysesCount previousPeriodAnalysesCount
      consentTotalCount marketingOptInCount improvementOptInCount
      waitlistPeriodCount waitlistPreviousPeriodCount : Nat)
    (startDate endDate : Date)
    (chartProfiles chartAnalyses chartWaitlist : Option (List Date)) :
    DashboardMetrics :=
  let previousTotalUsers : Int := max ((totalUsersCount : Int) - periodUsersCount) 0
  let totalUsersDelta : Int := totalUsersCount - previousTotalUsers
  let totalUsersDeltaPercent : Option ℚ :=
    if 0 < previousTotalUsers then
      some ((totalUsersDelta : ℚ) / (previousTotalUsers : ℚ) * 100)
    else none
  let signupsDelta : Int := (periodUsersCount : Int) - previousPeriodUsersCount
  let signupsDeltaPercent : Option ℚ :=
    if 0 < previousPeriodUsersCount then
      some ((signupsDelta : ℚ) / (previousPeriodUsersCount : ℚ) * 100)
    else none
  let analysesDelta : Int := (periodAnalysesCount : Int) - previousPeriodAnalysesCount
  let analysesDeltaPercent : Option ℚ :=
    if 0 < previousPeriodAnalysesCount then
      some ((analysesDelta : ℚ) / (previousPeriodAnalysesCount : ℚ) * 100)
    else none
  let waitlistDelta : Int := (waitlistPeriodCount : Int) - waitlistPreviousPeriodCount
  let waitlistDeltaPercent : Option ℚ :=
    if 0 < waitlistPreviousPeriodCount then
      some ((waitlistDelta : ℚ) / (waitlistPreviousPeriodCount : ℚ) * 100)
    else none
  let marketingRate : ℚ :=
    if 0 < consentTotalCount then
      (marketingOptInCount : ℚ) / (consentTotalCount : ℚ) * 100
    else 0
  let improvementRate : ℚ :=
    if 0 < consentTotalCount then
      (improvementOptInCount : ℚ) / (consentTotalCount : ℚ) * 100
    else 0
  { totalUsers :=
      ⟨totalUsersCount, some previousTotalUsers, totalUsersDelta, totalUsersDeltaPercent⟩
    weeklySignups :=
      ⟨periodUsersCount, some (previousPeriodUsersCount : Int), signupsDelta,
        signupsDeltaPercent⟩
    analyses :=
      ⟨periodAnalysesCount, some (previousPeriodAnalysesCount : Int), analysesDelta,
        analysesDeltaPercent⟩
    waitlist :=
      ⟨waitlistPeriodCount, some (waitlistPreviousPeriodCount : Int), waitlistDelta,
        waitlistDeltaPercent⟩
    consentMarketing := ⟨marketingOptInCount, consentTotalCount, marketingRate⟩
    consentImprovement := ⟨improvementOptInCount, consentTotalCount, improvementRate⟩
    userGrowthData := chartSeries startDate endDate chartProfiles
    analysisActivityData := chartSeries startDate endDate chartAnalyses
    waitlistGrowthData := chartSeries startDate endDate chartWaitlist }

/-- The same computation fed directly from the thirteen query responses,
as `getServerSideProps` does: each count goes through `getCountOrZero`. -/
def metricsFromResponses
    (totalUsersResponse periodUsersResponse previousPeriodUsersResponse
      periodAnalysesResponse previousPeriodAnalysesResponse
      consentTotalResponse consentMarketingResponse consentImprovementResponse
      waitlistPeriodResponse waitlistPreviousPeriodResponse : CountResponse)
    (startDate endDate : Date)
    (chartProfiles chartAnalyses chartWaitlist : Option (List Date)) :
    DashboardMetrics :=
  buildDashboardMetrics
    (getCountOrZero totalUsersResponse) (getCountOrZero periodUsersResponse)
    (getCountOrZero previousPeriodUsersResponse) (getCountOrZero periodAnalysesResponse)
    (getCountOrZero previousPeriodAnalysesResponse) (getCountOrZero consentTotalResponse)
    (getCountOrZero consentMarketingResponse) (getCountOrZero consentImprovementResponse)
    (getCountOrZero waitlistPeriodResponse) (getCountOrZero waitlistPreviousPeriodResponse)
    startDate endDate chartProfiles chartAnalyses chartWaitlist

/-- The variant of a rendered trend badge. -/
inductive TrendVariant where
  | neutral
  | positive
  | negative
deriving DecidableEq, Repr

/-- The shape of `formatTrend`'s result: the no-previous-data dash, a
percentage badge, or an absolute-delta badge.  (In the model the
`Number.isFinite` guard is always satisfied: a stored percentage is a
rational.) -/
inductive Trend where
  | noPrev
  | percentBadge (variant : TrendVariant) (value : ℚ)
  | absoluteBadge (variant : TrendVariant) (value : Int)
deriving DecidableEq, Repr

/-- The `formatTrend` helper of the dashboard page. -/
def formatTrend (metric : MetricData) : Trend :=
  match metric.previous with
  | none => .noPrev
  | some _ =>
    let variant : TrendVariant :=
      if metric.delta = 0 then .neutral
      else if 0 < metric.delta then .positive
      else .negative
    match metric.deltaPercentage with
    | some p => .percentBadge variant |p|
    | none => .absoluteBadge variant |metric.delta|

/-- C3: for each of the four metrics (total users, period signups,
analyses, waitlist), the delta-percentage field is null exactly when the
previous-period value is zero, and otherwise equals
(current − previous) / previous × 100. -/
theorem C3_deltaPercentage_spec
    (tc pc ppc pa ppa ct mo io wp wpp : Nat)
    (startDate endDate : Date) (cp ca cw : Option (List Date)) :
    ∀ metric ∈
      [(buildDashboardMetrics tc pc ppc pa ppa ct mo io wp wpp
          startDate endDate cp ca cw).totalUsers,
        (buildDashboardMetrics tc pc ppc pa ppa ct mo io wp wpp
          startDate endDate cp ca cw).weeklySignups,
        (buildDashboardMetrics tc pc ppc pa ppa ct mo io wp wpp
          startDate endDate cp ca cw).analyses,
        (buildDashboardMetrics tc pc ppc pa ppa ct mo io wp wpp
          startDate endDate cp ca cw).waitlist],
      ∀ p : Int, metric.previous = some p →
        metric.deltaPercentage =
          if p = 0 then none
          else some (((metric.current : ℚ) - (p : ℚ)) / (p : ℚ) * 100) := by
  intro metric hm p hp
  simp only [buildDashboardMetrics, List.mem_cons, List.not_mem_nil, or_false] at hm
  rcases hm with h | h | h | h <;> subst h <;>
    simp only [Option.some.injEq] at hp <;> subst hp <;>
    simp only <;>
    split_ifs with h1 h2 <;>
    first
      | rfl
      | omega
      | (congr 1; push_cast; ring)

/-- C3 witness: concrete evaluation for the waitlist metric with a
previous count of 4. -/
theorem C3_deltaPercentage_witness :
    (buildDashboardMetrics 10 5 3 7 2 9 4 1 6 4
        ⟨2024, 10, 1⟩ ⟨2024, 10, 7⟩ none none none).waitlist.deltaPercentage =
      some 50 := by
  have h := C3_deltaPercentage_spec 10 5 3 7 2 9 4 1 6 4
    ⟨2024, 10, 1⟩ ⟨2024, 10, 7⟩ none none none
    (buildDashboardMetrics 10 5 3 7 2 9 4 1 6 4
        ⟨2024, 10, 1⟩ ⟨2024, 10, 7⟩ none none none).waitlist
    (by simp) 4 rfl
  rw [h]
  norm_num [buildDashboardMetrics]

/-- C4: an errored (or null-count) query response degrades to the count
0, and the metric computation consumes exactly these degraded counts
(so the page still renders from total functions of them). -/
theorem C4_getCountOrZero_spec :
    (∀ r : CountResponse, r.error ≠ none ∨ r.count = none → getCountOrZero r = 0) ∧
    (∀ r1 r2 r3 r4 r5 r6 r7 r8 r9 r10 : CountResponse, ∀ startDate endDate : Date,
      ∀ cp ca cw : Option (List Date),
      metricsFromResponses r1 r2 r3 r4 r5 r6 r7 r8 r9 r10 startDate endDate cp ca cw =
        buildDashboardMetrics (getCountOrZero r1) (getCountOrZero r2) (getCountOrZero r3)
          (getCountOrZero r4) (getCountOrZero r5) (getCountOrZero r6) (getCountOrZero r7)
          (getCountOrZero r8) (getCountOrZero r9) (getCountOrZero r10)
          startDate endDate cp ca cw) := by
  constructor
  · rintro ⟨e, c⟩ h
    cases e with
    | some msg => rfl
    | none =>
      rcases h with h | h
      · exact absurd rfl h
      · simp only at h
        subst h
        rfl
  · intro r1 r2 r3 r4 r5 r6 r7 r8 r9 r10 startDate endDate cp ca cw
    rfl

/-- C4 witness: a response with an error and a non-null count still
degrades to 0. -/
theorem C4_getCountOrZero_witness :
    getCountOrZero ⟨some "connection reset", some 42⟩ = 0 :=
  C4_getCountOrZero_spec.1 ⟨some "connection reset", some 42⟩
    (Or.inl (by simp))

/-- C8: each consent opt-in rate equals the fraction of consent records
with the flag true as a percentage — opted-in count over total count
times 100 when the total is positive, and 0 when the total is zero —
and the rendered counts are exactly the opted-in and total counts. -/
theorem C8_consentRates_spec
    (tc pc ppc pa ppa ct mo io wp wpp : Nat)
    (startDate endDate : Date) (cp ca cw : Option (List Date)) :
    (buildDashboardMetrics tc pc ppc pa ppa ct mo io wp wpp
        startDate endDate cp ca cw).consentMarketing.rate =
      (if ct = 0 then 0 else 100 * ((mo : ℚ) / (ct : ℚ))) ∧
    (buildDashboardMetrics tc pc ppc pa ppa ct mo io wp wpp
        startDate endDate cp ca cw).consentMarketing.optedIn = mo ∧
    (buildDashboardMetrics tc pc ppc pa ppa ct mo io wp wpp
        startDate endDate cp ca cw).consentMarketing.total = ct ∧
    (buildDashboardMetrics tc pc ppc pa ppa ct mo io wp wpp
        startDate endDate cp ca cw).consentImprovement.rate =
      (if ct = 0 then 0 else 100 * ((io : ℚ) / (ct : ℚ))) ∧
    (buildDashboardMetrics tc pc ppc pa ppa ct mo io wp wpp
        startDate endDate cp ca cw).consentImprovement.optedIn = io ∧
    (buildDashboardMetrics tc pc ppc pa ppa ct mo io wp wpp
        startDate endDate cp ca cw).consentImprovement.total = ct := by
  refine ⟨?_, rfl, rfl, ?_, rfl, rfl⟩ <;>
    simp only [buildDashboardMetrics] <;>
    split_ifs with h1 h2 <;>
    first
      | rfl
      | omega
      | ring

/-- C9: the total-users metric's previous value is always
`max(totalUsersCount − periodUsersCount, 0)`: it is never null and never
negative, its trend never takes the no-previous-data branch, and its
delta equals the period signup count whenever
`periodUsersCount ≤ totalUsersCount`. -/
theorem C9_totalUsersPrevious_spec
    (tc pc ppc pa ppa ct mo io wp wpp : Nat)
    (startDate endDate : Date) (cp ca cw : Option (List Date)) :
    (buildDashboardMetrics tc pc ppc pa ppa ct mo io wp wpp
        startDate endDate cp ca cw).totalUsers.previous =
      some (max ((tc : Int) - (pc : Int)) 0) ∧
    (∀ p : Int,
      (buildDashboardMetrics tc pc ppc pa ppa ct mo io wp wpp
          startDate endDate cp ca cw).totalUsers.previous = some p → 0 ≤ p) ∧
    formatTrend (buildDashboardMetrics tc pc ppc pa ppa ct mo io wp wpp
        startDate endDate cp ca cw).totalUsers ≠ Trend.noPrev ∧
    ((pc : Int) ≤ (tc : Int) →
      (buildDashboardMetrics tc pc ppc pa ppa ct mo io wp wpp
          startDate endDate cp ca cw).totalUsers.delta = (pc : Int)) := by
  refine ⟨rfl, ?_, ?_, ?_⟩
  · intro p hp
    simp only [buildDashboardMetrics, Option.some.injEq] at hp
    subst hp
    exact le_max_right _ _
  · simp only [buildDashboardMetrics, formatTrend]
    split <;> simp
  · intro hle
    simp only [buildDashboardMetrics]
    omega

/-- C9 witness: with 10 total users and 3 period signups the previous
value is 7 and the delta is the signup count 3. -/
theorem C9_totalUsersPrevious_witness :
    (buildDashboardMetrics 10 3 0 0 0 0 0 0 0 0
        ⟨2024, 10, 1⟩ ⟨2024, 10, 7⟩ none none none).totalUsers.delta = 3 :=
  (C9_totalUsersPrevious_spec 10 3 0 0 0 0 0 0 0 0
      ⟨2024, 10, 1⟩ ⟨2024, 10, 7⟩ none none none).2.2.2 (by norm_num)

/-- C7: a chart series has exactly one data point per calendar day of
the window, in chronological order; the `i`-th point is the `i`-th day
of the window paired with the number of fetched rows whose `created_at`
falls on that day, and every value is 0 when the row query errored
(`rows = none`).  All three dashboard series are `chartSeries` applied
to the three row responses. -/
theorem C7_chartSeries_spec (start last : Date) (hs : start.Valid)
    (_hle : dayNumber start ≤ dayNumber last) (rows : Option (List Date)) :
    (chartSeries start last rows).length = (winLen start last).toNat ∧
    (∀ i, ∀ hi : i < (chartSeries start last rows).length,
      (chartSeries start last rows)[i] =
        (nextDay^[i] start,
          ((rows.getD []).filter (fun item => item = nextDay^[i] start)).length)) ∧
    (∀ i j, ∀ hi : i < (chartSeries start last rows).length,
      ∀ hj : j < (chartSeries start last rows).length, i < j →
      dayNumber (chartSeries start last rows)[i].1 <
        dayNumber (chartSeries start last rows)[j].1) ∧
    (rows = none → ∀ point ∈ chartSeries start last rows, point.2 = 0) := by
  have hget : ∀ i, ∀ hi : i < (chartSeries start last rows).length,
      (chartSeries start last rows)[i] =
        (nextDay^[i] start,
          ((rows.getD []).filter (fun item => item = nextDay^[i] start)).length) := by
    intro i hi
    simp [chartSeries, eachDayOfInterval]
  refine ⟨by simp [chartSeries, eachDayOfInterval, winLen], hget, ?_, ?_⟩
  · intro i j hi hj hij
    rw [hget i hi, hget j hj]
    dsimp only
    rw [dayNumber_nextDay_iterate hs i, dayNumber_nextDay_iterate hs j]
    omega
  · rintro rfl point hp
    obtain ⟨day, _, rfl⟩ := List.mem_map.1 hp
    simp

/-- C7 witness: a three-day window starting 2024-02-28 with one row on
the leap day; the middle point is Feb 29 with count 1. -/
theorem C7_chartSeries_witness :
    (chartSeries ⟨2024, 2, 28⟩ ⟨2024, 3, 1⟩ (some [⟨2024, 2, 29⟩])).length = 3 ∧
    (chartSeries ⟨2024, 2, 28⟩ ⟨2024, 3, 1⟩
        (some [⟨2024, 2, 29⟩])).get ⟨1, by decide⟩ = (⟨2024, 2, 29⟩, 1) := by
  have h := C7_chartSeries_spec ⟨2024, 2, 28⟩ ⟨2024, 3, 1⟩ (by decide) (by decide)
    (some [⟨2024, 2, 29⟩])
  refine ⟨by rw [h.1]; decide, ?_⟩
  rw [List.get_eq_getElem, h.2.1 1 (by decide)]
  decide

/-- JS falsiness for an optional string body field or URL: `undefined`
(absent) and the empty string are falsy. -/
def jsFalsy : Option String → Bool
  | none => true
  | some s => s == ""

/-- The substring after the last dot of `s` — the whole of `s` when it
contains no dot.  This is what `s.split('.').pop()` returns, since
`split` always yields a non-empty array whose last element is the part
after the last separator. -/
def afterLastDot (s : String) : String :=
  String.mk ((s.data.reverse.takeWhile (fun c => c ≠ '.')).reverse)

/-- JS `toLowerCase` on a filename, character by character. -/
def lowercase (s : String) : String := String.mk (s.data.map Char.toLower)

/-- The expression `fileName.split('.').pop()?.toLowerCase() || 'jpg'` of the upload
handler: the lowercased segment after the last dot (the whole lowercased
name when there is no dot), with the falsy empty string replaced by
`jpg`. -/
def fileExtension (fileName : String) : String :=
  let e := lowercase (afterLastDot fileName)
  if e = "" then "jpg" else e

/-- The `mimeTypes` lookup table of the upload handler. -/
def mimeTypes : List (String × String) :=
  [("jpg", "image/jpeg"), ("jpeg", "image/jpeg"), ("png", "image/png"),
    ("gif", "image/gif"), ("webp", "image/webp"), ("svg", "image/svg+xml")]

/-- The expression `mimeTypes[fileExtension] || 'image/jpeg'`: the content type sent to
storage (every table value is truthy, so `||` is the lookup default). -/
def contentTypeOf (fileName : String) : String :=
  ((mimeTypes.lookup (fileExtension fileName)).getD "image/jpeg")

/-- The character class `[a-zA-Z0-9.-]` of the sanitizing regex. -/
def allowedChar (c : Char) : Bool :=
  (decide ('a' ≤ c) && decide (c ≤ 'z')) ||
  (decide ('A' ≤ c) && decide (c ≤ 'Z')) ||
  (decide ('0' ≤ c) && decide (c ≤ '9')) ||
  c == '.' || c == '-'

/-- The expression `fileName.replace(/[^a-zA-Z0-9.-]/g, '_')` of the upload handler:
every character outside the class is replaced by an underscore. -/
def sanitizedFileName (fileName : String) : String :=
  String.mk (fileName.data.map (fun c => if allowedChar c then c else '_'))

/-- The decimal digit character of `n % 10`. -/
def digitChar (n : Nat) : Char := Char.ofNat (48 + n % 10)

/-- Decimal rendering of a natural number, as `${timestamp}` renders the
integer `Date.now()` value. -/
def natDigitChars (n : Nat) : List Char :=
  if n < 10 then [digitChar n] else natDigitChars (n / 10) ++ [digitChar (n % 10)]
decreasing_by
  have : 0 < n := by omega
  exact Nat.div_lt_self this (by norm_num)

/-- The storage key `messages/${timestamp}-${sanitizedFileName}` built
by the upload handler. -/
def storageFilePath (timestamp : Nat) (fileName : String) : String :=
  String.mk ("messages/".data ++ natDigitChars timestamp ++
    '-' :: (sanitizedFileName fileName).data)

/-- The inputs of one call to the upload API route: the request fields
and the outcomes of the external effects it awaits. -/
structure UploadRequest where
  adminOk : Bool
  method : String
  file : Option String
  fileName : Option String
  timestamp : Nat
  uploadThrows : Option String
  uploadError : Option String
  publicUrl : Option String

/-- What the upload route sends back: nothing (the admin guard already
responded and the handler returns), a JSON error with a status, or the
200 payload `{url, path}`. -/
inductive UploadResponse where
  | noResponse
  | jsonError (status : Nat) (message : String)
  | jsonOk (url : String) (path : String)
deriving DecidableEq, Repr

/-- The upload API route `handler`: admin guard, method check, required
fields, storage upload (which can fail with an error or throw), public
URL retrieval, success. -/
def handler (req : UploadRequest) : UploadResponse :=
  if req.adminOk = false then .noResponse
  else if req.method ≠ "POST" then .jsonError 405 "Methode non autorisee"
  else if jsFalsy req.file || jsFalsy req.fileName then
    .jsonError 400 "Fichier et nom de fichier requis"
  else
    match req.uploadThrows with
    | some msg => .jsonError 500 msg
    | none =>
      let filePath := storageFilePath req.timestamp (req.fileName.getD "")
      match req.uploadError with
      | some m => .jsonError 500 ("Erreur upload: " ++ m)
      | none =>
        if jsFalsy req.publicUrl then
          .jsonError 500 "Erreur lors de la recuperation de URL"
        else .jsonOk (req.publicUrl.getD "") filePath

/-- C2: non-admin callers get no handler response (the guard has already
rejected them before any of the rest runs); for admin callers the
response is exactly one of 405 (non-POST), 400 (missing/empty `file` or
`fileName`), 500 (upload throw, upload error, or missing public URL), or
200 with `{url, path}` where `path` is the built storage key. -/
theorem C2_handlerResponses_spec (req : UploadRequest) :
    (req.adminOk = false → handler req = .noResponse) ∧
    (req.adminOk = true →
      (req.method ≠ "POST" → handler req = .jsonError 405 "Methode non autorisee") ∧
      (req.method = "POST" →
        (jsFalsy req.file = true ∨ jsFalsy req.fileName = true) →
        handler req = .jsonError 400 "Fichier et nom de fichier requis") ∧
      ((∃ m, handler req = .jsonError 400 m) ∨
        (∃ m, handler req = .jsonError 405 m) ∨
        ((∃ m, handler req = .jsonError 500 m) ∧
          (req.uploadThrows ≠ none ∨ req.uploadError ≠ none ∨
            jsFalsy req.publicUrl = true)) ∨
        (∃ u, handler req =
          .jsonOk u (storageFilePath req.timestamp (req.fileName.getD ""))))) := by
  obtain ⟨adm, meth, file, fname, ts, uthrow, uerr, purl⟩ := req
  dsimp only
  cases adm with
  | false =>
    constructor
    · intro _
      rfl
    · intro h
      exact absurd h (by simp)
  | true =>
    constructor
    · intro h
      exact absurd h (by simp)
    · intro _
      refine ⟨?_, ?_, ?_⟩
      · intro hne
        simp [handler, hne]
      · intro hPost hfal
        have hb : (jsFalsy file || jsFalsy fname) = true := by
          rcases hfal with h | h <;> simp [h]
        simp [handler, hPost, hb]
      · by_cases hPost : meth = "POST"
        · by_cases hfal : (jsFalsy file || jsFalsy fname) = true
          · exact Or.inl ⟨"Fichier et nom de fichier requis",
              by simp [handler, hPost, hfal]⟩
          · cases uthrow with
            | some msg =>
              refine Or.inr (Or.inr (Or.inl ⟨⟨msg, ?_⟩, Or.inl (by simp)⟩))
              simp [handler, hPost, hfal]
            | none =>
              cases uerr with
              | some m =>
                refine Or.inr (Or.inr (Or.inl
                  ⟨⟨"Erreur upload: " ++ m, ?_⟩, Or.inr (Or.inl (by simp))⟩))
                simp [handler, hPost, hfal]
              | none =>
                by_cases hurl : jsFalsy purl = true
                · refine Or.inr (Or.inr (Or.inl
                    ⟨⟨"Erreur lors de la recuperation de URL", ?_⟩,
                      Or.inr (Or.inr hurl)⟩))
                  simp [handler, hPost, hfal, hurl]
                · refine Or.inr (Or.inr (Or.inr ⟨purl.getD "", ?_⟩))
                  simp [handler, hPost, hfal, hurl]
        · exact Or.inr (Or.inl ⟨"Methode non autorisee", by simp [handler, hPost]⟩)

/-- C2 witness: an admin GET request is answered with the 405 error. -/
theorem C2_handlerResponses_witness :
    handler ⟨true, "GET", none, none, 0, none, none, none⟩ =
      .jsonError 405 "Methode non autorisee" :=
  ((C2_handlerResponses_spec ⟨true, "GET", none, none, 0, none, none, none⟩).2
    rfl).1 (by decide)

/-- Whether a filename contains a dot at all. -/
def hasDot (s : String) : Bool := s.data.contains '.'

/-- The content-type rule exactly as the claim words it: the lowercased
final extension looked up in the fixed table, `image/jpeg` for any
extension not in the table, including a filename with no dot. -/
def claimedContentType (fileName : String) : String :=
  if hasDot fileName then
    (mimeTypes.lookup (lowercase (afterLastDot fileName))).getD "image/jpeg"
  else "image/jpeg"

/-- C5, counterexample: for the dotless filename `png` the handler uses
the whole name as the extension and sends `image/png`, while the claim
(no dot ⇒ `image/jpeg`) demands `image/jpeg`. -/
theorem C5_counterexample :
    hasDot "png" = false ∧ contentTypeOf "png" = "image/png" ∧
    claimedContentType "png" = "image/jpeg" ∧
    contentTypeOf "png" ≠ claimedContentType "png" := by decide

theorem mimeLookup_eq (e : String) :
    ((mimeTypes.lookup e).getD "image/jpeg") =
      if e = "jpg" ∨ e = "jpeg" then "image/jpeg"
      else if e = "png" then "image/png"
      else if e = "gif" then "image/gif"
      else if e = "webp" then "image/webp"
      else if e = "svg" then "image/svg+xml"
      else "image/jpeg" := by
  by_cases h1 : e = "jpg"
  · subst h1; decide
  by_cases h2 : e = "jpeg"
  · subst h2; decide
  by_cases h3 : e = "png"
  · subst h3; decide
  by_cases h4 : e = "gif"
  · subst h4; decide
  by_cases h5 : e = "webp"
  · subst h5; decide
  by_cases h6 : e = "svg"
  · subst h6; decide
  have b1 : (e == "jpg") = false := by simp [h1]
  have b2 : (e == "jpeg") = false := by simp [h2]
  have b3 : (e == "png") = false := by simp [h3]
  have b4 : (e == "gif") = false := by simp [h4]
  have b5 : (e == "webp") = false := by simp [h5]
  have b6 : (e == "svg") = false := by simp [h6]
  simp [mimeTypes, List.lookup, b1, b2, b3, b4, b5, b6, h1, h2, h3, h4, h5, h6]

/-- The amended content-type rule, modelled from the amended claim's
words: the effective extension is the lowercased segment after the last
dot — the whole lowercased filename when there is no dot — with the
empty string replaced by `jpg`; the content type is its table entry, and
`image/jpeg` for anything not in the table. -/
def amendedContentType (fileName : String) : String :=
  let ext := lowercase (afterLastDot fileName)
  let eff := if ext = "" then "jpg" else ext
  if eff = "jpg" ∨ eff = "jpeg" then "image/jpeg"
  else if eff = "png" then "image/png"
  else if eff = "gif" then "image/gif"
  else if eff = "webp" then "image/webp"
  else if eff = "svg" then "image/svg+xml"
  else "image/jpeg"

/-- C5, amended: the handler's content type follows the amended rule on
every filename. -/
theorem C5_amended (fileName : String) :
    contentTypeOf fileName = amendedContentType fileName := by
  unfold contentTypeOf amendedContentType
  rw [mimeLookup_eq]
  rfl

theorem digitChar_bounds (n : Nat) : '0' ≤ digitChar n ∧ digitChar n ≤ '9' := by
  unfold digitChar
  set k := n % 10 with hk
  have h : k < 10 := Nat.mod_lt _ (by norm_num)
  interval_cases k <;> decide

theorem natDigitChars_digits (n : Nat) :
    ∀ c ∈ natDigitChars n, '0' ≤ c ∧ c ≤ '9' := by
  induction n using Nat.strong_induction_on with
  | _ n ih =>
    intro c hc
    rw [natDigitChars] at hc
    split_ifs at hc with h
    · rw [List.mem_singleton] at hc
      subst hc
      exact digitChar_bounds n
    · rw [List.mem_append] at hc
      rcases hc with hc | hc
      · exact ih (n / 10) (Nat.div_lt_self (by omega) (by norm_num)) c hc
      · rw [List.mem_singleton] at hc
        subst hc
        exact digitChar_bounds (n % 10)

theorem allowedChar_of_digit {c : Char} (h1 : '0' ≤ c) (h2 : c ≤ '9') :
    allowedChar c = true := by
  simp only [allowedChar, Bool.or_eq_true, Bool.and_eq_true, decide_eq_true_eq,
    beq_iff_eq]
  tauto

/-- C6: the storage key is `messages/<timestamp digits>-<sanitized>`
where the sanitized name replaces every character outside `[a-zA-Z0-9.-]`
by an underscore; consequently every character after the `messages/`
prefix is in the class or an underscore, and no further `/` occurs. -/
theorem C6_storageKey_spec (ts : Nat) (fileName : String) :
    (storageFilePath ts fileName).data =
      "messages/".data ++
        (natDigitChars ts ++ '-' :: (sanitizedFileName fileName).data) ∧
    (∀ c ∈ (storageFilePath ts fileName).data.drop 9,
      allowedChar c = true ∨ c = '_') ∧
    '/' ∉ (storageFilePath ts fileName).data.drop 9 := by
  have hdata : (storageFilePath ts fileName).data =
      "messages/".data ++
        (natDigitChars ts ++ '-' :: (sanitizedFileName fileName).data) := rfl
  have hlen : ("messages/".data).length = 9 := rfl
  have hdrop : (storageFilePath ts fileName).data.drop 9 =
      natDigitChars ts ++ '-' :: (sanitizedFileName fileName).data := by
    rw [hdata, ← hlen, List.drop_left]
  have hmem : ∀ c ∈ (storageFilePath ts fileName).data.drop 9,
      allowedChar c = true ∨ c = '_' := by
    rw [hdrop]
    intro c hc
    rw [List.mem_append] at hc
    rcases hc with hc | hc
    · obtain ⟨b1, b2⟩ := natDigitChars_digits ts c hc
      exact Or.inl (allowedChar_of_digit b1 b2)
    · rw [List.mem_cons] at hc
      rcases hc with rfl | hc
      · exact Or.inl (by decide)
      · simp only [sanitizedFileName] at hc
        rw [List.mem_map] at hc
        obtain ⟨c0, _, rfl⟩ := hc
        by_cases hall : allowedChar c0 = true
        · rw [if_pos hall]
          exact Or.inl hall
        · rw [if_neg hall]
          exact Or.inr rfl
  refine ⟨hdata, hmem, fun hslash => ?_⟩
  rcases hmem '/' hslash with h | h
  · exact absurd h (by decide)
  · exact absurd h (by decide)

/-- C6 witness: a concrete key for timestamp 17 and a filename with a
space, an accented letter and a slash. -/
theorem C6_storageKey_witness :
    '/' ∉ (storageFilePath 17 "héllo wor/ld.png").data.drop 9 :=
  (C6_storageKey_spec 17 "héllo wor/ld.png").2.2

/-- A row of `in_app_messages` as selected by the dashboard page
(`start_date` is compared to the current time, modelled as epoch
milliseconds). -/
structure MessageRow where
  title : String
  is_active : Bool
  start_date : Option Int
  target_user_ids : Option (List String)
  updated_at : Option String
  created_at : Option String

/-- The `MessageStats` record of the dashboard page (the `generatedAt` timestamp
string is presentation-only and omitted). -/
structure MessageStats where
  total : Nat
  active : Nat
  targeted : Nat
  upcoming : Nat
  lastMessageTitle : Option String
  lastMessageUpdatedAt : Option String

/-- The `baseStats` value: the all-zero statistics returned when the
`in_app_messages` query errors. -/
def baseStats : MessageStats := ⟨0, 0, 0, 0, none, none⟩

/-- The `stats` computation of the success branch. -/
def computeMessageStats (messages : List MessageRow) (nowForMessages : Int) :
    MessageStats :=
  { total := messages.length
    active := (messages.filter (fun message => message.is_active)).length
    targeted := (messages.filter (fun message =>
      match message.target_user_ids with
      | some ids => decide (0 < ids.length)
      | none => false)).length
    upcoming := (messages.filter (fun message =>
      match message.start_date with
      | some d => decide (nowForMessages < d)
      | none => false)).length
    lastMessageTitle := messages.head?.map (fun message => message.title)
    lastMessageUpdatedAt :=
      match messages.head? with
      | none => none
      | some message =>
        match message.updated_at with
        | some u => some u
        | none => message.created_at }

/-- The `in_app_messages` query result: an error or a (possibly null)
row list. -/
structure MessagesQueryResult where
  error : Option String
  data : Option (List MessageRow)

/-- The props returned by `getServerSideProps` (besides the session):
`selectedPeriod = none` models the branch that omits the field. -/
structure HomeProps where
  messageStats : MessageStats
  dashboardMetrics : DashboardMetrics
  selectedPeriod : Option String

/-- The tail of `getServerSideProps` (lines 617–670): on a messages
query error, return `baseStats` with the already-computed metrics and
no `selectedPeriod`; on success, compute the stats from `data ?? []`
and include `selectedPeriod`. -/
def pageProps (dashboardMetrics : DashboardMetrics) (period : String)
    (result : MessagesQueryResult) (nowForMessages : Int) : HomeProps :=
  match result.error with
  | some _ => ⟨baseStats, dashboardMetrics, none⟩
  | none =>
    ⟨computeMessageStats (result.data.getD []) nowForMessages,
      dashboardMetrics, some period⟩

/-- C10: when the `in_app_messages` query errors the page still returns,
with every message statistic zeroed, the last-message fields null, the
dashboard metrics passed through unchanged, and no `selectedPeriod`
field — while the success branch always includes `selectedPeriod`. -/
theorem C10_errorBranch_spec (dm : DashboardMetrics) (period : String)
    (e : String) (d : Option (List MessageRow)) (nowForMessages : Int) :
    (pageProps dm period ⟨some e, d⟩ nowForMessages).messageStats.total = 0 ∧
    (pageProps dm period ⟨some e, d⟩ nowForMessages).messageStats.active = 0 ∧
    (pageProps dm period ⟨some e, d⟩ nowForMessages).messageStats.targeted = 0 ∧
    (pageProps dm period ⟨some e, d⟩ nowForMessages).messageStats.upcoming = 0 ∧
    (pageProps dm period ⟨some e, d⟩ nowForMessages).messageStats.lastMessageTitle
      = none ∧
    (pageProps dm period ⟨some e, d⟩
      nowForMessages).messageStats.lastMessageUpdatedAt = none ∧
    (pageProps dm period ⟨some e, d⟩ nowForMessages).dashboardMetrics = dm ∧
    (pageProps dm period ⟨some e, d⟩ nowForMessages).selectedPeriod = none ∧
    (∀ rows : Option (List MessageRow),
      (pageProps dm period ⟨none, rows⟩ nowForMessages).selectedPeriod =
        some period) :=
  ⟨rfl, rfl, rfl, rfl, rfl, rfl, rfl, rfl, fun _ => rfl⟩
